import Mathlib

/-!
Shallow embedding of the tiny_ecs runtime core (src/src/ecs/Manager.cpp and
the pool/registry layers it drives), together with theorems checking the
natural-language specification against it.

The scheduler state below embeds the system-scheduling fields of
ecs::Manager (m_orderedSystems, m_newSystems, m_removedSystems,
m_isUpdatingSystems, m_systemPrioritiesChanged).  Systems are identified by
natural numbers; `prio` gives each system its numeric priority
(System::operator< compares priorities; the System class itself is not part
of the sources, so the comparison is modelled from the spec, which orders
systems by ascending numeric priority).  Calls observable from outside
(System::Init, System::Update, System::Destroy) are recorded in a trace.
-/

namespace TinyEcs

abbrev SysId := Nat

/-- Observable calls the Manager makes into systems. -/
inductive Ev where
  | init (s : SysId)
  | update (s : SysId)
  | destroy (s : SysId)
deriving DecidableEq, Repr

/-- The system-scheduling fields of ecs::Manager. -/
structure SchedState where
  /-- Priority of each system, read through System::operator<.
  Modelled from the spec: systems are ordered by ascending numeric priority. -/
  prio : SysId → Int
  /-- m_orderedSystems -/
  orderedSystems : List SysId
  /-- m_newSystems : pairs (system, mustBeAddedToOrderedSystemsList) -/
  newSystems : List (SysId × Bool)
  /-- m_removedSystems -/
  removedSystems : List SysId
  /-- m_isUpdatingSystems -/
  isUpdatingSystems : Bool
  /-- m_systemPrioritiesChanged -/
  systemPrioritiesChanged : Bool

/-- A scheduler with no systems registered, as after Manager construction. -/
def initSched (p : SysId → Int) : SchedState :=
  { prio := p
    orderedSystems := []
    newSystems := []
    removedSystems := []
    isUpdatingSystems := false
    systemPrioritiesChanged := false }

/-- The comparison predicate passed to std::upper_bound and
std::stable_sort in Manager.cpp: `*lhs < *rhs` on systems, i.e. priority
comparison (System::operator< modelled from the spec). -/
def sysLt (p : SysId → Int) (a b : SysId) : Bool :=
  decide (p a < p b)

/-- std::upper_bound insertion used by Manager::AddSystemToOrderedSystemsList:
the new element is inserted before the first element it compares less than,
hence after every element it does not compare less than. -/
def upperBoundInsert (lt : SysId → SysId → Bool) (x : SysId) : List SysId → List SysId
  | [] => [x]
  | y :: ys => if lt x y then x :: y :: ys else y :: upperBoundInsert lt x ys

/-- Manager::AddSystemToOrderedSystemsList. -/
def AddSystemToOrderedSystemsList (st : SchedState) (s : SysId) : SchedState :=
  { st with orderedSystems := upperBoundInsert (sysLt st.prio) s st.orderedSystems }

/-- Manager::AddSystem: records the system in m_newSystems (remembering
whether the ordered list still needs the insertion) and, outside an update
pass, inserts it into the ordered list immediately. -/
def AddSystem (st : SchedState) (s : SysId) : SchedState :=
  let st1 := { st with newSystems := st.newSystems ++ [(s, st.isUpdatingSystems)] }
  if st1.isUpdatingSystems then st1 else AddSystemToOrderedSystemsList st1 s

/-- Manager::DoRemoveSystem: calls Destroy on the system and erases it from
the ordered list (the type-index map and owning storage, which carry no
claim-relevant state, are erased alongside in the source). -/
def DoRemoveSystem (st : SchedState) (s : SysId) : SchedState × List Ev :=
  ({ st with orderedSystems := st.orderedSystems.erase s }, [Ev.destroy s])

/-- Manager::RemoveSystem: buffered into m_removedSystems during an update
pass, applied immediately otherwise. -/
def RemoveSystem (st : SchedState) (s : SysId) : SchedState × List Ev :=
  if st.isUpdatingSystems then
    ({ st with removedSystems := st.removedSystems ++ [s] }, [])
  else
    DoRemoveSystem st s

/-- Manager::NotifySystemPriorityChanged. -/
def NotifySystemPriorityChanged (st : SchedState) : SchedState :=
  { st with systemPrioritiesChanged := true }

/-- Scheduler calls a System::Update body may make back into the Manager. -/
inductive Cmd where
  | addSystem (s : SysId)
  | removeSystem (s : SysId)

def runCmd (st : SchedState) (c : Cmd) : SchedState × List Ev :=
  match c with
  | .addSystem s => (AddSystem st s, [])
  | .removeSystem s => RemoveSystem st s

def runCmds (st : SchedState) (cs : List Cmd) : SchedState × List Ev :=
  cs.foldl (fun acc c =>
    let r := runCmd acc.1 c
    (r.1, acc.2 ++ r.2)) (st, [])

/-- Manager::UpdateSystems: sets the re-entrancy flag, calls Update on each
system of the ordered list in order, then clears the flag.  `eff s` gives
the scheduler calls the Update body of system `s` makes; while the flag is
set those calls never modify the ordered list, so iterating the entry
snapshot coincides with the source's iteration of the live vector. -/
def UpdateSystems (eff : SysId → List Cmd) (st : SchedState) : SchedState × List Ev :=
  let r := st.orderedSystems.foldl (fun acc s =>
      let r1 := runCmds acc.1 (eff s)
      (r1.1, acc.2 ++ Ev.update s :: r1.2))
    ({ st with isUpdatingSystems := true }, [])
  ({ r.1 with isUpdatingSystems := false }, r.2)

/-- The first block of Manager::Update: each system registered since the
last tick is inserted into the ordered list when still pending, gets Init
called, and m_newSystems is cleared. -/
def integrateNewSystems (st : SchedState) : SchedState × List Ev :=
  let r := st.newSystems.foldl (fun acc sd =>
      let st1 := if sd.2 then AddSystemToOrderedSystemsList acc.1 sd.1 else acc.1
      (st1, acc.2 ++ [Ev.init sd.1]))
    (st, [])
  ({ r.1 with newSystems := [] }, r.2)

/-- Insertion sort by repeated upper-bound insertion: sorted, stable, and a
permutation, hence extensionally the std::stable_sort of
Manager::SortOrderedSystemsList (proved below). -/
def stableSort (lt : SysId → SysId → Bool) (l : List SysId) : List SysId :=
  l.foldl (fun acc x => upperBoundInsert lt x acc) []

/-- Manager::SortOrderedSystemsList. -/
def SortOrderedSystemsList (st : SchedState) : SchedState :=
  { st with
    orderedSystems := stableSort (sysLt st.prio) st.orderedSystems
    systemPrioritiesChanged := false }

/-- The last block of Manager::Update: systems buffered for removal during
the pass are removed (Destroy, erase) and the buffer is cleared. -/
def drainRemovedSystems (st : SchedState) : SchedState × List Ev :=
  let r := st.removedSystems.foldl (fun acc s =>
      let r1 := DoRemoveSystem acc.1 s
      (r1.1, acc.2 ++ r1.2)) (st, [])
  ({ r.1 with removedSystems := [] }, r.2)

/-- Manager::Update: integrate pending registrations (calling Init), re-sort
when priorities changed, run the update pass, then drain pending removals. -/
def ManagerUpdate (eff : SysId → List Cmd) (st : SchedState) : SchedState × List Ev :=
  let r1 := if st.newSystems.isEmpty then (st, []) else integrateNewSystems st
  let st2 := if r1.1.systemPrioritiesChanged then SortOrderedSystemsList r1.1 else r1.1
  let r2 := UpdateSystems eff st2
  let r3 := if r2.1.removedSystems.isEmpty then (r2.1, []) else drainRemovedSystems r2.1
  (r3.1, r1.2 ++ r2.2 ++ r3.2)

/-- The system-teardown block of Manager::Destroy: Destroy is called on each
system by a forward iteration of m_orderedSystems, then the containers are
cleared. -/
def ManagerDestroy (st : SchedState) : SchedState × List Ev :=
  ({ st with orderedSystems := [] }, st.orderedSystems.map Ev.destroy)

/-! Concrete scheduler scenarios from the spec: systems A = 0 (priority 10),
B = 1 (priority 20 in the three-system scenario, 5 in the two-system one),
C = 2 (priority 5). -/

def prioTwo : SysId → Int := fun s => if s = 0 then 10 else 5

def schedTwo : SchedState := AddSystem (AddSystem (initSched prioTwo) 0) 1

def prioThree : SysId → Int := fun s => if s = 0 then 10 else if s = 1 then 20 else 5

/-- During its Update, system 0 registers system 2 and unregisters system 1. -/
def effRegThenRemove : SysId → List Cmd :=
  fun s => if s = 0 then [Cmd.addSystem 2, Cmd.removeSystem 1] else []

def schedThreeStart : SchedState := AddSystem (AddSystem (initSched prioThree) 0) 1

def schedTick1 : SchedState × List Ev := ManagerUpdate effRegThenRemove schedThreeStart

def schedTick2 : SchedState × List Ev := ManagerUpdate (fun _ => []) schedTick1.1

/-- A scheduler state captured in the middle of an update pass. -/
def midSched : SchedState :=
  { prio := fun _ => 0
    orderedSystems := [0]
    newSystems := []
    removedSystems := []
    isUpdatingSystems := true
    systemPrioritiesChanged := false }

/-- C1 counterexample: with systems 0 (priority 10) then 1 (priority 5)
registered before the first Update, the first Update does not produce the
claimed order Init 1, Init 0, Update 1, Update 0 — Init is called in
registration order, not priority order. -/
theorem firstUpdate_sorted_init_order_false :
    (ManagerUpdate (fun _ => []) schedTwo).2 ≠
      [Ev.init 1, Ev.init 0, Ev.update 1, Ev.update 0] := by decide

/-- C1 (amended): for systems a then b registered before the first Update
with b of lower priority, the first Update calls Init in registration order
(a then b) and then Update in priority order (b then a). -/
theorem firstUpdate_init_registration_update_priority
    (p : SysId → Int) (a b : SysId) (hab : a ≠ b) (h : p b < p a) :
    (ManagerUpdate (fun _ => []) (AddSystem (AddSystem (initSched p) a) b)).2 =
      [Ev.init a, Ev.init b, Ev.update b, Ev.update a] := by
  simp [ManagerUpdate, AddSystem, AddSystemToOrderedSystemsList, initSched,
        upperBoundInsert, sysLt, integrateNewSystems, UpdateSystems, runCmds,
        drainRemovedSystems, SortOrderedSystemsList, h]

/-- Witness for the amended C1 theorem at p = prioTwo, a = 0, b = 1. -/
theorem firstUpdate_init_registration_update_priority_witness :
    (0 : SysId) ≠ 1 ∧ prioTwo 1 < prioTwo 0 ∧
    (ManagerUpdate (fun _ => []) (AddSystem (AddSystem (initSched prioTwo) 0) 1)).2 =
      [Ev.init 0, Ev.init 1, Ev.update 1, Ev.update 0] :=
  ⟨by decide, by decide,
   firstUpdate_init_registration_update_priority prioTwo 0 1 (by decide) (by decide)⟩

/-- C2: while the update pass is running (the re-entrancy flag is set),
AddSystem only buffers into m_newSystems (flagged as still pending ordered
insertion) and RemoveSystem only buffers into m_removedSystems, neither
touching the ordered list nor producing calls; and in the concrete
three-system scenario, system 2 registered during tick 1 gets no Update and
no Init within tick 1, system 1 unregistered during tick 1 has Destroy
called after the update pass of tick 1 and is erased, and tick 2 starts
with Init of system 2 which then participates in priority order. -/
theorem midTick_mutations_buffered (st : SchedState) (s : SysId)
    (h : st.isUpdatingSystems = true) :
    ((AddSystem st s).orderedSystems = st.orderedSystems ∧
     (AddSystem st s).newSystems = st.newSystems ++ [(s, true)]) ∧
    ((RemoveSystem st s).1.orderedSystems = st.orderedSystems ∧
     (RemoveSystem st s).2 = [] ∧
     (RemoveSystem st s).1.removedSystems = st.removedSystems ++ [s]) ∧
    (schedTick1.2 =
       [Ev.init 0, Ev.init 1, Ev.update 0, Ev.update 1, Ev.destroy 1] ∧
     Ev.update 2 ∉ schedTick1.2 ∧ Ev.init 2 ∉ schedTick1.2 ∧
     schedTick1.1.orderedSystems = [0] ∧
     schedTick2.2 = [Ev.init 2, Ev.update 2, Ev.update 0] ∧
     schedTick2.1.orderedSystems = [2, 0]) := by
  refine ⟨⟨?_, ?_⟩, ⟨?_, ?_, ?_⟩, by decide⟩ <;>
    simp [AddSystem, RemoveSystem, AddSystemToOrderedSystemsList, h]

/-- Witness for the C2 theorem at a concrete mid-pass state. -/
theorem midTick_mutations_buffered_witness :
    midSched.isUpdatingSystems = true ∧
    (((AddSystem midSched 5).orderedSystems = midSched.orderedSystems ∧
      (AddSystem midSched 5).newSystems = midSched.newSystems ++ [(5, true)]) ∧
     ((RemoveSystem midSched 5).1.orderedSystems = midSched.orderedSystems ∧
      (RemoveSystem midSched 5).2 = [] ∧
      (RemoveSystem midSched 5).1.removedSystems = midSched.removedSystems ++ [5]) ∧
     (schedTick1.2 =
        [Ev.init 0, Ev.init 1, Ev.update 0, Ev.update 1, Ev.destroy 1] ∧
      Ev.update 2 ∉ schedTick1.2 ∧ Ev.init 2 ∉ schedTick1.2 ∧
      schedTick1.1.orderedSystems = [0] ∧
      schedTick2.2 = [Ev.init 2, Ev.update 2, Ev.update 0] ∧
      schedTick2.1.orderedSystems = [2, 0])) :=
  ⟨rfl, midTick_mutations_buffered midSched 5 rfl⟩

/-- Systems of priority `v`, in list order: used to state stability of the
ordered list (registration order breaking ties between equal priorities). -/
def filterPrio (p : SysId → Int) (v : Int) (l : List SysId) : List SysId :=
  l.filter (fun x => decide (p x = v))

theorem mem_upperBoundInsert (p : SysId → Int) (s x : SysId) (l : List SysId) :
    x ∈ upperBoundInsert (sysLt p) s l ↔ x = s ∨ x ∈ l := by
  induction l with
  | nil => simp [upperBoundInsert]
  | cons y ys ih =>
    simp only [upperBoundInsert]
    split
    · simp [List.mem_cons]
    · simp [List.mem_cons, ih]
      tauto

theorem sorted_upperBoundInsert (p : SysId → Int) (s : SysId) (l : List SysId)
    (h : l.Sorted (fun a b => p a ≤ p b)) :
    (upperBoundInsert (sysLt p) s l).Sorted (fun a b => p a ≤ p b) := by
  induction l with
  | nil => simp [upperBoundInsert]
  | cons y ys ih =>
    rw [List.sorted_cons] at h
    obtain ⟨hy, hys⟩ := h
    simp only [upperBoundInsert]
    split
    · rename_i hlt
      have hlt2 : p s < p y := by simpa [sysLt] using hlt
      rw [List.sorted_cons]
      refine ⟨?_, ?_⟩
      · intro z hz
        rcases List.mem_cons.mp hz with rfl | hz2
        · exact le_of_lt hlt2
        · exact le_trans (le_of_lt hlt2) (hy z hz2)
      · rw [List.sorted_cons]
        exact ⟨hy, hys⟩
    · rename_i hnlt
      have hle : p y ≤ p s := by
        have : ¬ p s < p y := by simpa [sysLt] using hnlt
        omega
      rw [List.sorted_cons]
      refine ⟨?_, ih hys⟩
      intro z hz
      rcases (mem_upperBoundInsert p s z ys).mp hz with rfl | hz2
      · exact hle
      · exact hy z hz2

theorem perm_upperBoundInsert (p : SysId → Int) (s : SysId) (l : List SysId) :
    List.Perm (upperBoundInsert (sysLt p) s l) (s :: l) := by
  induction l with
  | nil => simp [upperBoundInsert]
  | cons y ys ih =>
    simp only [upperBoundInsert]
    split
    · exact List.Perm.refl _
    · exact (ih.cons y).trans (List.Perm.swap s y ys)

theorem filterPrio_upperBoundInsert (p : SysId → Int) (v : Int) (s : SysId)
    (l : List SysId) (h : l.Sorted (fun a b => p a ≤ p b)) :
    filterPrio p v (upperBoundInsert (sysLt p) s l) =
      filterPrio p v l ++ (if p s = v then [s] else []) := by
  induction l with
  | nil => by_cases hv : p s = v <;> simp [upperBoundInsert, filterPrio, hv]
  | cons y ys ih =>
    rw [List.sorted_cons] at h
    obtain ⟨hy, hys⟩ := h
    simp only [upperBoundInsert]
    split
    · rename_i hlt
      have hlt2 : p s < p y := by simpa [sysLt] using hlt
      by_cases hv : p s = v
      · have hnil : filterPrio p v (y :: ys) = [] := by
          simp only [filterPrio, List.filter_eq_nil]
          intro z hz
          rcases List.mem_cons.mp hz with rfl | hz2
          · simp
            omega
          · have := hy z hz2
            simp
            omega
        simp [filterPrio, List.filter_cons, hv] at hnil ⊢
        simp [hnil]
      · simp [filterPrio, List.filter_cons, hv]
    · rename_i hnlt
      have hrec := ih hys
      by_cases hv : p y = v
      · simp only [filterPrio, List.filter_cons] at hrec ⊢
        simp [hv, hrec]
      · simp only [filterPrio, List.filter_cons] at hrec ⊢
        simp [hv, hrec]

theorem sorted_insFoldl (p : SysId → Int) (l : List SysId) :
    ∀ acc, acc.Sorted (fun a b => p a ≤ p b) →
      (l.foldl (fun a x => upperBoundInsert (sysLt p) x a) acc).Sorted
        (fun a b => p a ≤ p b) := by
  induction l with
  | nil => intro acc h; simpa using h
  | cons x xs ih =>
    intro acc h
    exact ih _ (sorted_upperBoundInsert p x acc h)

theorem perm_insFoldl (p : SysId → Int) (l : List SysId) :
    ∀ acc, List.Perm (l.foldl (fun a x => upperBoundInsert (sysLt p) x a) acc)
      (acc ++ l) := by
  induction l with
  | nil => intro acc; simp
  | cons x xs ih =>
    intro acc
    refine (ih _).trans ?_
    refine ((perm_upperBoundInsert p x acc).append_right xs).trans ?_
    exact List.perm_middle.symm

theorem filterPrio_insFoldl (p : SysId → Int) (v : Int) (l : List SysId) :
    ∀ acc, acc.Sorted (fun a b => p a ≤ p b) →
      filterPrio p v (l.foldl (fun a x => upperBoundInsert (sysLt p) x a) acc) =
        filterPrio p v acc ++ filterPrio p v l := by
  induction l with
  | nil => intro acc _; simp [filterPrio]
  | cons x xs ih =>
    intro acc h
    simp only [List.foldl_cons]
    rw [ih _ (sorted_upperBoundInsert p x acc h),
        filterPrio_upperBoundInsert p v x acc h]
    by_cases hv : p x = v <;>
      simp [filterPrio, List.filter_cons, hv, List.append_assoc]

theorem sorted_stableSort (p : SysId → Int) (l : List SysId) :
    (stableSort (sysLt p) l).Sorted (fun a b => p a ≤ p b) :=
  sorted_insFoldl p l [] (by simp)

theorem perm_stableSort (p : SysId → Int) (l : List SysId) :
    List.Perm (stableSort (sysLt p) l) l := by
  simpa using perm_insFoldl p l []

theorem filterPrio_stableSort (p : SysId → Int) (v : Int) (l : List SysId) :
    filterPrio p v (stableSort (sysLt p) l) = filterPrio p v l := by
  simpa [filterPrio] using filterPrio_insFoldl p v l [] (by simp)

theorem runCmds_nil (st : SchedState) : runCmds st [] = (st, []) := rfl

theorem updateSystems_foldl_no_eff (l : List SysId) :
    ∀ (st0 : SchedState) (tr : List Ev),
      l.foldl (fun acc s =>
          let r1 := runCmds acc.1 []
          (r1.1, acc.2 ++ Ev.update s :: r1.2)) (st0, tr) =
        (st0, tr ++ l.map Ev.update) := by
  induction l with
  | nil => intro st0 tr; simp
  | cons x xs ih =>
    intro st0 tr
    simp only [runCmds_nil] at ih ⊢
    simp only [List.foldl_cons]
    rw [ih]
    simp

theorem updateSystems_no_eff (st : SchedState) :
    UpdateSystems (fun _ => []) st =
      ({ st with isUpdatingSystems := false }, st.orderedSystems.map Ev.update) := by
  simp [UpdateSystems, updateSystems_foldl_no_eff]

/-- C3: upper-bound insertion keeps the ordered list sorted by ascending
priority and places the inserted system after every system of equal
priority (registration order breaks ties); the stable sort used at the tick
boundary is sorted, a permutation, and preserves the relative order of
equal-priority systems; NotifySystemPriorityChanged sets the dirty flag;
and a tick beginning with the dirty flag set re-sorts the ordered list
before the update pass, clears the flag, and issues its Update calls in the
new stable-sorted priority order. -/
theorem ordered_list_sorted_and_stable_resort
    (p : SysId → Int) (s : SysId) (l : List SysId) (st : SchedState)
    (hl : l.Sorted (fun a b => p a ≤ p b))
    (hp : st.prio = p) (hflag : st.systemPrioritiesChanged = true)
    (hnew : st.newSystems = []) (hrem : st.removedSystems = []) :
    ((upperBoundInsert (sysLt p) s l).Sorted (fun a b => p a ≤ p b) ∧
     filterPrio p (p s) (upperBoundInsert (sysLt p) s l) =
       filterPrio p (p s) l ++ [s]) ∧
    ((stableSort (sysLt p) st.orderedSystems).Sorted (fun a b => p a ≤ p b) ∧
     List.Perm (stableSort (sysLt p) st.orderedSystems) st.orderedSystems ∧
     (∀ v : Int, filterPrio p v (stableSort (sysLt p) st.orderedSystems) =
        filterPrio p v st.orderedSystems)) ∧
    (∀ st2 : SchedState,
       (NotifySystemPriorityChanged st2).systemPrioritiesChanged = true) ∧
    ((ManagerUpdate (fun _ => []) st).2 =
       (stableSort (sysLt p) st.orderedSystems).map Ev.update ∧
     (ManagerUpdate (fun _ => []) st).1.orderedSystems =
       stableSort (sysLt p) st.orderedSystems ∧
     (ManagerUpdate (fun _ => []) st).1.systemPrioritiesChanged = false) := by
  refine ⟨⟨sorted_upperBoundInsert p s l hl, ?_⟩,
          ⟨sorted_stableSort p _, perm_stableSort p _,
           fun v => filterPrio_stableSort p v _⟩,
          fun st2 => rfl, ?_⟩
  · rw [filterPrio_upperBoundInsert p (p s) s l hl]
    simp
  · simp [ManagerUpdate, hnew, hflag, hp, hrem, SortOrderedSystemsList,
          updateSystems_no_eff]

/-- A scheduler state between ticks with the priority-dirty flag set. -/
def dirtySched : SchedState :=
  { prio := prioTwo
    orderedSystems := [0, 1]
    newSystems := []
    removedSystems := []
    isUpdatingSystems := false
    systemPrioritiesChanged := true }

/-- Witness for the C3 theorem at p = prioTwo, s = 2, l = [1, 0] and the
concrete dirty-flag state. -/
theorem ordered_list_sorted_and_stable_resort_witness :
    ([1, 0] : List SysId).Sorted (fun a b => prioTwo a ≤ prioTwo b) ∧
    (((upperBoundInsert (sysLt prioTwo) 2 [1, 0]).Sorted
        (fun a b => prioTwo a ≤ prioTwo b) ∧
      filterPrio prioTwo (prioTwo 2) (upperBoundInsert (sysLt prioTwo) 2 [1, 0]) =
        filterPrio prioTwo (prioTwo 2) [1, 0] ++ [2]) ∧
     ((stableSort (sysLt prioTwo) dirtySched.orderedSystems).Sorted
        (fun a b => prioTwo a ≤ prioTwo b) ∧
      List.Perm (stableSort (sysLt prioTwo) dirtySched.orderedSystems)
        dirtySched.orderedSystems ∧
      (∀ v : Int,
         filterPrio prioTwo v (stableSort (sysLt prioTwo) dirtySched.orderedSystems) =
           filterPrio prioTwo v dirtySched.orderedSystems)) ∧
     (∀ st2 : SchedState,
        (NotifySystemPriorityChanged st2).systemPrioritiesChanged = true) ∧
     ((ManagerUpdate (fun _ => []) dirtySched).2 =
        (stableSort (sysLt prioTwo) dirtySched.orderedSystems).map Ev.update ∧
      (ManagerUpdate (fun _ => []) dirtySched).1.orderedSystems =
        stableSort (sysLt prioTwo) dirtySched.orderedSystems ∧
      (ManagerUpdate (fun _ => []) dirtySched).1.systemPrioritiesChanged = false)) :=
  ⟨by simp [List.sorted_cons, prioTwo],
   ordered_list_sorted_and_stable_resort prioTwo 2 [1, 0] dirtySched
     (by simp [List.sorted_cons, prioTwo]) rfl rfl rfl rfl⟩

/-- C6 counterexample: with systems 0 (priority 10) and 1 (priority 5)
registered, Manager teardown does not call Destroy in reverse priority
order (system 0 first); it iterates the ordered list forward. -/
theorem destroy_reverse_priority_order_false :
    (ManagerDestroy schedTwo).2 ≠ [Ev.destroy 0, Ev.destroy 1] := by decide

/-- C6 (amended): Manager::Destroy calls Destroy on the registered systems
by a forward iteration of the ordered list — ascending priority, the same
order as the update pass, not the reverse — and then clears the list. -/
theorem destroy_follows_update_order (st : SchedState) :
    (ManagerDestroy st).2 = st.orderedSystems.map Ev.destroy ∧
    (ManagerDestroy st).1.orderedSystems = [] :=
  ⟨rfl, rfl⟩

/-! Pool (chunked index-stable storage).  MemoryPool.hpp is not among the
sources; the pool is modelled from the spec (§4.1): each slot carries an
alive flag and a generation counter; a free list threads through dead
slots; allocate reuses the free-list head, with the generation unchanged on
reuse, else appends a fresh slot; free marks the slot dead, increments its
generation and pushes it on the free list; at(index, generation)
dereferences iff the slot is alive and the generations match.  Chunked
growth only guarantees index stability, which list-indexed slots give. -/

structure Slot (α : Type) where
  alive : Bool
  generation : Nat
  payload : Option α
deriving DecidableEq, Repr

structure Pool (α : Type) where
  slots : List (Slot α)
  freeList : List Nat
deriving DecidableEq, Repr

/-- A slot brought back to life with payload `v`; its generation is
unchanged (it was bumped on free). -/
def Slot.revived {α : Type} (s : Slot α) (v : α) : Slot α :=
  { alive := true, generation := s.generation, payload := some v }

/-- A slot marked dead: generation incremented, payload destroyed. -/
def Slot.dead {α : Type} (s : Slot α) : Slot α :=
  { alive := false, generation := s.generation + 1, payload := none }

/-- Modelled from the spec: mark slot `i` alive again with payload `v`. -/
def reviveAt {α : Type} (v : α) : List (Slot α) → Nat → List (Slot α)
  | [], _ => []
  | s :: rest, 0 => s.revived v :: rest
  | s :: rest, n + 1 => s :: reviveAt v rest n

/-- Modelled from the spec: mark slot `i` dead, increment its generation,
destroy its payload. -/
def killAt {α : Type} : List (Slot α) → Nat → List (Slot α)
  | [], _ => []
  | s :: rest, 0 => s.dead :: rest
  | s :: rest, n + 1 => s :: killAt rest n

/-- Modelled from the spec: allocate() reuses the free-list head if present,
else appends at the next unused slot; returns the slot index. -/
def Pool.allocate {α : Type} (p : Pool α) (v : α) : Nat × Pool α :=
  match p.freeList with
  | i :: rest => (i, { slots := reviveAt v p.slots i, freeList := rest })
  | [] =>
      (p.slots.length,
       { slots := p.slots ++ [{ alive := true, generation := 0, payload := some v }],
         freeList := [] })

/-- Modelled from the spec: free(index) has precondition that the slot is
alive; it marks the slot dead, increments the generation and pushes the
index onto the free list.  On a dead or absent slot it is a no-op, per the
release-build policy of the error-handling section. -/
def Pool.free {α : Type} (p : Pool α) (i : Nat) : Pool α :=
  match p.slots[i]? with
  | some s =>
      if s.alive then { slots := killAt p.slots i, freeList := i :: p.freeList }
      else p
  | none => p

/-- Modelled from the spec: at(index, generation) returns the payload iff
the slot is alive and the generations match. -/
def Pool.atSlot {α : Type} (p : Pool α) (i g : Nat) : Option α :=
  match p.slots[i]? with
  | some s => if s.alive = true ∧ s.generation = g then s.payload else none
  | none => none

theorem get_killAt_self {α : Type} (l : List (Slot α)) (i : Nat) :
    (killAt l i)[i]? = l[i]?.map Slot.dead := by
  induction l generalizing i with
  | nil => simp [killAt]
  | cons s rest ih =>
    cases i with
    | zero => simp [killAt]
    | succ n => simpa [killAt] using ih n

theorem get_reviveAt_self {α : Type} (v : α) (l : List (Slot α)) (i : Nat) :
    (reviveAt v l i)[i]? = l[i]?.map (fun s => s.revived v) := by
  induction l generalizing i with
  | nil => simp [reviveAt]
  | cons s rest ih =>
    cases i with
    | zero => simp [reviveAt]
    | succ n => simpa [reviveAt] using ih n

/-- C4: freeing a slot invalidates every handle carrying its prior
generation — the read returns null — and this persists after the slot is
re-allocated to a new payload: the next allocation reuses the freed slot
(the free-list head), yet the stale handle still reads null, while the
bumped generation reads the new payload. -/
theorem stale_handle_reads_null {α : Type} (p : Pool α) (i g : Nat)
    (s : Slot α) (w : α)
    (hs : p.slots[i]? = some s) (halive : s.alive = true)
    (hgen : s.generation = g) :
    (p.free i).atSlot i g = none ∧
    ((p.free i).allocate w).1 = i ∧
    ((p.free i).allocate w).2.atSlot i g = none ∧
    ((p.free i).allocate w).2.atSlot i (g + 1) = some w := by
  have hfree : p.free i =
      { slots := killAt p.slots i, freeList := i :: p.freeList } := by
    simp [Pool.free, hs, halive]
  have hdead : (killAt p.slots i)[i]? = some s.dead := by
    rw [get_killAt_self, hs]
    rfl
  have halloc : (p.free i).allocate w =
      (i, { slots := reviveAt w (killAt p.slots i) i, freeList := p.freeList }) := by
    rw [hfree]
    rfl
  have hrev : (reviveAt w (killAt p.slots i) i)[i]? = some (s.dead.revived w) := by
    rw [get_reviveAt_self, hdead]
    rfl
  refine ⟨?_, ?_, ?_, ?_⟩
  · rw [hfree]
    simp [Pool.atSlot, hdead, Slot.dead]
  · rw [halloc]
  · rw [halloc]
    simp [Pool.atSlot, hrev, Slot.dead, Slot.revived]
    omega
  · rw [halloc]
    simp [Pool.atSlot, hrev, Slot.dead, Slot.revived, hgen]

/-- A concrete three-slot pool: slots 0 and 1 alive at generation 0,
slot 2 previously freed twice. -/
def poolThree : Pool Nat :=
  { slots :=
      [{ alive := true, generation := 0, payload := some 7 },
       { alive := true, generation := 0, payload := some 8 },
       { alive := false, generation := 2, payload := none }],
    freeList := [2] }

/-- Witness for the C4 theorem at slot 1 of the concrete pool. -/
theorem stale_handle_reads_null_witness :
    (poolThree.slots[1]? =
       some { alive := true, generation := 0, payload := some 8 } ∧
     ({ alive := true, generation := 0, payload := some (8 : Nat) } :
        Slot Nat).alive = true ∧
     ({ alive := true, generation := 0, payload := some (8 : Nat) } :
        Slot Nat).generation = 0) ∧
    ((poolThree.free 1).atSlot 1 0 = none ∧
     ((poolThree.free 1).allocate 9).1 = 1 ∧
     ((poolThree.free 1).allocate 9).2.atSlot 1 0 = none ∧
     ((poolThree.free 1).allocate 9).2.atSlot 1 (0 + 1) = some 9) :=
  ⟨⟨by decide, by decide, by decide⟩,
   stale_handle_reads_null poolThree 1 0
     { alive := true, generation := 0, payload := some 8 } 9
     (by decide) (by decide) (by decide)⟩

/-! Component registry, tuple-cache table and the process-wide singleton
(Manager.cpp).  The registry state embeds m_componentStorages,
m_componentNameToIdMapping and m_tupleCaches; the unordered maps are
association lists with std::unordered_map::emplace semantics (no overwrite
of an existing key).  ComponentHandle internals and the per-collection
Create path are not among the sources; they are modelled from the spec
(handle = {type-id, slot-index, generation}; Create allocates and returns a
handle). -/

/-- ComponentHandle / ComponentPtr.  Modelled from the spec: an opaque
{type-id, slot-index, generation} triple; ComponentPtr() default-constructs
the invalid handle. -/
inductive ComponentPtr where
  | invalid
  | handle (typeId index generation : Nat)
deriving DecidableEq, Repr

/-- Manager::GetInvalidComponentTypeId returns
numeric_limits<ComponentTypeId>::max.  Modelled from the spec:
ComponentTypeId is a small dense integer (stored as uint8_t in
EntitiesCollection.hpp), so the sentinel is 255. -/
def GetInvalidComponentTypeId : Nat := 255

/-- k_invalidComponentName from Manager.cpp. -/
def k_invalidComponentName : String := "[UNDEFINED]"

/-- Lookup in an association list, as std::unordered_map::find. -/
def assocLookup {α β : Type} [DecidableEq α] (k : α) : List (α × β) → Option β
  | [] => none
  | kv :: rest => if kv.1 = k then some kv.2 else assocLookup k rest

/-- std::unordered_map::emplace: inserts only when the key is absent. -/
def emplace {α β : Type} [DecidableEq α] (m : List (α × β)) (k : α) (v : β) :
    List (α × β) :=
  if (assocLookup k m).isSome then m else m ++ [(k, v)]

/-- ComponentsTupleCache as constructed from (typeIds.data, typeIds.size)
in Manager::RegisterComponentsTupleIterator. -/
structure ComponentsTupleCache where
  typeIds : List Nat
deriving DecidableEq, Repr

/-- GenericComponentsCacheView: wraps a possibly null tuple-cache pointer. -/
structure GenericComponentsCacheView where
  tupleCache : Option ComponentsTupleCache
deriving DecidableEq, Repr

/-- The registry fields of ecs::Manager. -/
structure ManagerState where
  /-- m_componentStorages -/
  componentStorages : List (Pool Unit)
  /-- m_componentNameToIdMapping -/
  componentNameToIdMapping : List (String × Nat)
  /-- m_tupleCaches -/
  tupleCaches : List (Nat × ComponentsTupleCache)
deriving DecidableEq

/-- A Manager with nothing registered. -/
def emptyManager : ManagerState :=
  { componentStorages := [], componentNameToIdMapping := [], tupleCaches := [] }

def emptyPool : Pool Unit := { slots := [], freeList := [] }

/-- std::hash on the integral ComponentTypeId: the identity on the value
modulo the 64-bit size_t, as in the mainstream standard libraries
(ecs/detail/Hash.hpp is not among the sources). -/
def stdHash (x : Nat) : Nat := x % 2 ^ 64

/-- hash_combine from ecs/detail/Hash.hpp, modelled as the boost formula
the header indicates: seed XOR (h + 0x9e3779b9 + (seed shl 6) +
(seed shr 2)), over 64-bit size_t. -/
def hashCombine (seed h : Nat) : Nat :=
  Nat.xor seed ((h + 0x9e3779b9 + seed * 64 + seed / 4) % 2 ^ 64) % 2 ^ 64

/-- ComponentTypesListHash from Manager.cpp: 0 for the empty list, else the
hash of the first id combined left-to-right with the hashes of the rest —
in the order the list is given; the list is not sorted. -/
def ComponentTypesListHash : List Nat → Nat
  | [] => 0
  | t :: ts => ts.foldl (fun acc x => hashCombine acc (stdHash x)) (stdHash t)

/-- The static_cast<uint32_t> applied to the hash in Manager.cpp. -/
def toUInt32 (n : Nat) : Nat := n % 2 ^ 32

/-- Manager::GetComponentsTupleCache: find by truncated hash, null when
absent. -/
def GetComponentsTupleCache (st : ManagerState) (typeIds : List Nat) :
    Option ComponentsTupleCache :=
  assocLookup (toUInt32 (ComponentTypesListHash typeIds)) st.tupleCaches

/-- Manager::GetComponentsTuple. -/
def GetComponentsTuple (st : ManagerState) (typeIds : List Nat) :
    GenericComponentsCacheView :=
  ⟨GetComponentsTupleCache st typeIds⟩

/-- Manager::RegisterComponentsTupleIterator. -/
def RegisterComponentsTupleIterator (st : ManagerState) (typeIds : List Nat) :
    ManagerState :=
  if typeIds.length > 0 then
    { st with tupleCaches :=
        emplace st.tupleCaches (toUInt32 (ComponentTypesListHash typeIds)) ⟨typeIds⟩ }
  else st

/-- Manager::GetComponentTypeIdByName. -/
def GetComponentTypeIdByName (st : ManagerState) (name : String) : Nat :=
  (assocLookup name st.componentNameToIdMapping).getD GetInvalidComponentTypeId

/-- The std::find_if over m_componentNameToIdMapping in
Manager::GetComponentNameByTypeId, matching on the mapped id. -/
def findNameByTypeId (typeId : Nat) : List (String × Nat) → Option String
  | [] => none
  | kv :: rest => if kv.2 = typeId then some kv.1 else findNameByTypeId typeId rest

/-- Manager::GetComponentNameByTypeId. -/
def GetComponentNameByTypeId (st : ManagerState) (typeId : Nat) : String :=
  (findNameByTypeId typeId st.componentNameToIdMapping).getD k_invalidComponentName

/-- Manager::RegisterComponentTypeInternal: append the collection, record
name → id (the type-index tables carry no claim-relevant state). -/
def RegisterComponentTypeInternal (st : ManagerState) (name : String)
    (typeId : Nat) (collection : Pool Unit) : ManagerState :=
  { st with
    componentStorages := st.componentStorages ++ [collection]
    componentNameToIdMapping := emplace st.componentNameToIdMapping name typeId }

def listSet {α : Type} : List α → Nat → α → List α
  | [], _, _ => []
  | _ :: rest, 0, v => v :: rest
  | x :: rest, n + 1, v => x :: listSet rest n v

/-- The collection Create of §4.2, modelled from the spec: allocate a slot,
return a handle carrying the slot's index and generation. -/
def collectionCreate (typeId : Nat) (pool : Pool Unit) : ComponentPtr × Pool Unit :=
  let r := pool.allocate ()
  let g := match r.2.slots[r.1]? with
    | some s => s.generation
    | none => 0
  (ComponentPtr.handle typeId r.1 g, r.2)

/-- Manager::CreateComponentInternal = GetCollection(typeId)->Create().
Manager::GetCollection asserts typeId < m_componentStorages.size() and
indexes the vector without a range guard; an out-of-range id therefore hits
the failed assertion (debug) or unguarded storage access (release),
modelled as none. -/
def CreateComponentInternal (st : ManagerState) (typeId : Nat) :
    Option (ComponentPtr × ManagerState) :=
  match st.componentStorages[typeId]? with
  | some pool =>
      let r := collectionCreate typeId pool
      some (r.1, { st with componentStorages := listSet st.componentStorages typeId r.2 })
  | none => none

/-- Manager::CreateComponentByName: route through the name map; an unknown
name returns the default-constructed (invalid) ComponentPtr. -/
def CreateComponentByName (st : ManagerState) (name : String) :
    Option (ComponentPtr × ManagerState) :=
  match assocLookup name st.componentNameToIdMapping with
  | some typeId => CreateComponentInternal st typeId
  | none => some (ComponentPtr.invalid, st)

/-- Manager::CreateComponentByTypeId: no range check before
CreateComponentInternal. -/
def CreateComponentByTypeId (st : ManagerState) (typeId : Nat) :
    Option (ComponentPtr × ManagerState) :=
  CreateComponentInternal st typeId

/-! The process-wide singleton (ManagerInstance in Manager.cpp).  Manager
identity is the allocation counter value, so distinct news are distinct. -/

structure GlobalState where
  /-- ManagerInstance: null or the live Manager. -/
  managerInstance : Option Nat
  /-- Distinguishes successive heap allocations of Manager. -/
  nextAlloc : Nat
deriving DecidableEq, Repr

/-- Process start: ManagerInstance = nullptr. -/
def globalStart : GlobalState := { managerInstance := none, nextAlloc := 0 }

/-- Manager::Get. -/
def ManagerGet (g : GlobalState) : Option Nat := g.managerInstance

/-- Manager::InitECSManager: ManagerInstance = new Manager(). -/
def InitECSManager (g : GlobalState) : GlobalState :=
  { managerInstance := some g.nextAlloc, nextAlloc := g.nextAlloc + 1 }

/-- Manager::ShutdownECSManager: when an instance is live, Destroy it,
delete it and reset the pointer to null; otherwise do nothing. -/
def ShutdownECSManager (g : GlobalState) : GlobalState :=
  match g.managerInstance with
  | some _ => { managerInstance := none, nextAlloc := g.nextAlloc }
  | none => g

def lifecycleRound (g : GlobalState) : GlobalState :=
  ShutdownECSManager (InitECSManager g)

/-- The global state after n correctly alternating Init/Shutdown rounds. -/
def afterRounds : Nat → GlobalState
  | 0 => globalStart
  | n + 1 => lifecycleRound (afterRounds n)

theorem assocLookup_eq_none_of_not_mem {α β : Type} [DecidableEq α]
    (l : List (α × β)) (k : α) (h : k ∉ l.map Prod.fst) :
    assocLookup k l = none := by
  induction l with
  | nil => rfl
  | cons kv rest ih =>
    simp only [List.map_cons, List.mem_cons] at h
    push_neg at h
    have hk : ¬ kv.1 = k := fun e => h.1 e.symm
    simp [assocLookup, hk, ih h.2]

theorem assocLookup_eq_some_of_mem {α β : Type} [DecidableEq α]
    (l : List (α × β)) (k : α) (v : β)
    (hnd : (l.map Prod.fst).Nodup) (hm : (k, v) ∈ l) :
    assocLookup k l = some v := by
  induction l with
  | nil => cases hm
  | cons kv rest ih =>
    simp only [List.map_cons, List.nodup_cons] at hnd
    rcases List.mem_cons.mp hm with rfl | hm2
    · simp [assocLookup]
    · have hk : kv.1 ≠ k := by
        intro hk
        exact hnd.1 (hk ▸ List.mem_map.mpr ⟨(k, v), hm2, rfl⟩)
      simp [assocLookup, hk, ih hnd.2 hm2]

theorem assocLookup_append_of_none {α β : Type} [DecidableEq α]
    (m : List (α × β)) (k : α) (v : β) (h : assocLookup k m = none) :
    assocLookup k (m ++ [(k, v)]) = some v := by
  induction m with
  | nil => simp [assocLookup]
  | cons kv rest ih =>
    by_cases hk : kv.1 = k
    · simp [assocLookup, hk] at h
    · simp only [assocLookup, hk, if_false, List.cons_append] at h ⊢
      exact ih h

theorem findNameByTypeId_eq_none_of_not_mem (l : List (String × Nat)) (j : Nat)
    (h : j ∉ l.map Prod.snd) : findNameByTypeId j l = none := by
  induction l with
  | nil => rfl
  | cons kv rest ih =>
    simp only [List.map_cons, List.mem_cons] at h
    push_neg at h
    have hk : ¬ kv.2 = j := fun e => h.1 e.symm
    simp [findNameByTypeId, hk, ih h.2]

theorem findNameByTypeId_eq_some_of_mem (l : List (String × Nat))
    (n : String) (i : Nat)
    (hnd : (l.map Prod.snd).Nodup) (hm : (n, i) ∈ l) :
    findNameByTypeId i l = some n := by
  induction l with
  | nil => cases hm
  | cons kv rest ih =>
    simp only [List.map_cons, List.nodup_cons] at hnd
    rcases List.mem_cons.mp hm with rfl | hm2
    · simp [findNameByTypeId]
    · have hk : kv.2 ≠ i := by
        intro hk
        exact hnd.1 (hk ▸ List.mem_map.mpr ⟨(n, i), hm2, rfl⟩)
      simp [findNameByTypeId, hk, ih hnd.2 hm2]

/-- C5 counterexample: on a Manager with no registered component types,
CreateComponentByTypeId 5 does not return the invalid handle: it reaches
GetCollection's failed assertion / unguarded storage access, modelled as
none. -/
theorem createByTypeId_out_of_range_invalid_handle_false :
    CreateComponentByTypeId emptyManager 5 = none ∧
    CreateComponentByTypeId emptyManager 5 ≠ some (ComponentPtr.invalid, emptyManager) :=
  ⟨rfl, fun h => Option.noConfusion h⟩

/-- C5 (amended): CreateComponentByName on a name absent from the registry
returns the default-constructed invalid handle without error or storage
access; CreateComponentByTypeId performs no range check, so a type-id
outside [0, N) reaches Manager::GetCollection, whose assertion fails in
debug builds and whose vector access is unguarded in release builds
(modelled as none) — it does not return an invalid handle. -/
theorem createByName_unknown_returns_invalid_handle
    (st : ManagerState) (name : String) (typeId : Nat)
    (hname : assocLookup name st.componentNameToIdMapping = none)
    (hid : st.componentStorages.length ≤ typeId) :
    CreateComponentByName st name = some (ComponentPtr.invalid, st) ∧
    CreateComponentByTypeId st typeId = none := by
  constructor
  · simp [CreateComponentByName, hname]
  · simp [CreateComponentByTypeId, CreateComponentInternal,
          List.getElem?_eq_none hid]

/-- A Manager with the single component type "StaticMesh" registered. -/
def oneTypeManager : ManagerState :=
  RegisterComponentTypeInternal emptyManager "StaticMesh" 0 emptyPool

/-- Witness for the amended C5 theorem: unknown name and out-of-range id on
the one-type Manager. -/
theorem createByName_unknown_returns_invalid_handle_witness :
    (assocLookup "Rigidbody" oneTypeManager.componentNameToIdMapping = none ∧
     oneTypeManager.componentStorages.length ≤ 3) ∧
    (CreateComponentByName oneTypeManager "Rigidbody" =
       some (ComponentPtr.invalid, oneTypeManager) ∧
     CreateComponentByTypeId oneTypeManager 3 = none) :=
  ⟨⟨by decide, by decide⟩,
   createByName_unknown_returns_invalid_handle oneTypeManager "Rigidbody" 3
     (by decide) (by decide)⟩

/-- A Manager with the tuple query {1, 2} registered, in that order. -/
def tupleMgrA : ManagerState :=
  RegisterComponentsTupleIterator emptyManager [1, 2]

/-- C7 counterexample: after registering the query list [1, 2], looking up
the permutation [2, 1] does not return the cached view created at
registration — the hash is over the list in its given order, so the
permuted lookup finds no cache. -/
theorem tuple_cache_permutation_lookup_false :
    GetComponentsTuple tupleMgrA [1, 2] = ⟨some ⟨[1, 2]⟩⟩ ∧
    GetComponentsTupleCache tupleMgrA [2, 1] = none ∧
    GetComponentsTuple tupleMgrA [2, 1] ≠ GetComponentsTuple tupleMgrA [1, 2] := by
  refine ⟨by decide, by decide, by decide⟩

/-- C7 (amended): the tuple cache table is keyed by a hash of the type-id
list in the order given at registration (the list is not sorted), so
looking up with the identical list returns the cached view created at
registration, while a permuted list generally finds no cache, as the
counterexample shows. -/
theorem tuple_cache_same_order_lookup (st : ManagerState) (typeIds : List Nat)
    (hne : typeIds ≠ [])
    (hfresh : assocLookup (toUInt32 (ComponentTypesListHash typeIds))
      st.tupleCaches = none) :
    GetComponentsTupleCache (RegisterComponentsTupleIterator st typeIds) typeIds =
      some ⟨typeIds⟩ ∧
    GetComponentsTuple (RegisterComponentsTupleIterator st typeIds) typeIds =
      ⟨some ⟨typeIds⟩⟩ := by
  have hlen : typeIds.length > 0 := List.length_pos.mpr hne
  have hreg : (RegisterComponentsTupleIterator st typeIds).tupleCaches =
      st.tupleCaches ++
        [(toUInt32 (ComponentTypesListHash typeIds), ⟨typeIds⟩)] := by
    simp [RegisterComponentsTupleIterator, hlen, emplace, hfresh]
  have hlook : GetComponentsTupleCache (RegisterComponentsTupleIterator st typeIds)
      typeIds = some ⟨typeIds⟩ := by
    rw [GetComponentsTupleCache, hreg]
    exact assocLookup_append_of_none _ _ _ hfresh
  exact ⟨hlook, by rw [GetComponentsTuple, hlook]⟩

/-- Witness for the amended C7 theorem at the empty Manager and list [3]. -/
theorem tuple_cache_same_order_lookup_witness :
    (([3] : List Nat) ≠ [] ∧
     assocLookup (toUInt32 (ComponentTypesListHash [3]))
       emptyManager.tupleCaches = none) ∧
    (GetComponentsTupleCache (RegisterComponentsTupleIterator emptyManager [3]) [3] =
       some ⟨[3]⟩ ∧
     GetComponentsTuple (RegisterComponentsTupleIterator emptyManager [3]) [3] =
       ⟨some ⟨[3]⟩⟩) :=
  ⟨⟨by decide, by decide⟩,
   tuple_cache_same_order_lookup emptyManager [3] (by decide) (by decide)⟩

/-- C8: in a registry whose name-to-id table carries pairwise distinct
names and pairwise distinct ids (as successive registrations with fresh
names and fresh sequential ids produce), the mapping round-trips: the name
looks up to its id and the id finds back its name; an unregistered name
yields the maximum-value sentinel and an unregistered id yields
"[UNDEFINED]", with no error path. -/
theorem name_typeId_round_trip (st : ManagerState) (n : String) (i : Nat)
    (hkeys : (st.componentNameToIdMapping.map Prod.fst).Nodup)
    (hvals : (st.componentNameToIdMapping.map Prod.snd).Nodup)
    (hmem : (n, i) ∈ st.componentNameToIdMapping) :
    GetComponentTypeIdByName st n = i ∧
    GetComponentNameByTypeId st i = n ∧
    (∀ m : String, m ∉ st.componentNameToIdMapping.map Prod.fst →
       GetComponentTypeIdByName st m = GetInvalidComponentTypeId) ∧
    (∀ j : Nat, j ∉ st.componentNameToIdMapping.map Prod.snd →
       GetComponentNameByTypeId st j = k_invalidComponentName) := by
  refine ⟨?_, ?_, ?_, ?_⟩
  · rw [GetComponentTypeIdByName,
        assocLookup_eq_some_of_mem _ n i hkeys hmem]
    rfl
  · rw [GetComponentNameByTypeId,
        findNameByTypeId_eq_some_of_mem _ n i hvals hmem]
    rfl
  · intro m hm
    rw [GetComponentTypeIdByName, assocLookup_eq_none_of_not_mem _ m hm]
    rfl
  · intro j hj
    rw [GetComponentNameByTypeId, findNameByTypeId_eq_none_of_not_mem _ j hj]
    rfl

/-- A Manager with two component types registered with sequential ids. -/
def twoTypeManager : ManagerState :=
  RegisterComponentTypeInternal
    (RegisterComponentTypeInternal emptyManager "StaticMesh" 0 emptyPool)
    "Camera" 1 emptyPool

/-- Witness for the C8 theorem at the two-type Manager and ("Camera", 1). -/
theorem name_typeId_round_trip_witness :
    ((twoTypeManager.componentNameToIdMapping.map Prod.fst).Nodup ∧
     (twoTypeManager.componentNameToIdMapping.map Prod.snd).Nodup ∧
     ("Camera", 1) ∈ twoTypeManager.componentNameToIdMapping) ∧
    (GetComponentTypeIdByName twoTypeManager "Camera" = 1 ∧
     GetComponentNameByTypeId twoTypeManager 1 = "Camera" ∧
     (∀ m : String, m ∉ twoTypeManager.componentNameToIdMapping.map Prod.fst →
        GetComponentTypeIdByName twoTypeManager m = GetInvalidComponentTypeId) ∧
     (∀ j : Nat, j ∉ twoTypeManager.componentNameToIdMapping.map Prod.snd →
        GetComponentNameByTypeId twoTypeManager j = k_invalidComponentName)) :=
  ⟨⟨by decide, by decide, by decide⟩,
   name_typeId_round_trip twoTypeManager "Camera" 1
     (by decide) (by decide) (by decide)⟩

/-- C9: along any correctly alternating InitECSManager / ShutdownECSManager
sequence, Get returns null before the InitECSManager of a round, returns
exactly the instance that Init created at every point between Init and
Shutdown, and returns null again after ShutdownECSManager. -/
theorem singleton_lifecycle (n : Nat) :
    ManagerGet (afterRounds n) = none ∧
    ManagerGet (InitECSManager (afterRounds n)) = some (afterRounds n).nextAlloc ∧
    ManagerGet (ShutdownECSManager (InitECSManager (afterRounds n))) = none := by
  refine ⟨?_, rfl, rfl⟩
  cases n with
  | zero => rfl
  | succ m => rfl

/-- A Manager with the one-element tuple query [0] registered; the hash of
[0] is 0, the same as the defined hash of the empty list. -/
def tupleMgrZero : ManagerState :=
  RegisterComponentsTupleIterator emptyManager [0]

/-- C10 counterexample: once the legitimate one-element query [0] is
registered, its hash is 0, so GetComponentsTuple on the empty list returns
a view backed by that cache — not a null-backed view. -/
theorem empty_tuple_query_null_cache_false :
    RegisterComponentsTupleIterator tupleMgrZero [] = tupleMgrZero ∧
    GetComponentsTuple tupleMgrZero [] = ⟨some ⟨[0]⟩⟩ ∧
    GetComponentsTuple tupleMgrZero [] ≠ ⟨none⟩ := by
  refine ⟨by decide, by decide, by decide⟩

/-- C10 (amended): registering a components-tuple iterator with an empty
type-id list is a no-op (no cache entry is created), and GetComponentsTuple
on an empty list — whose hash is defined as 0 — returns a view backed by a
null cache provided no registered list's truncated hash is 0; a registered
list may hash to 0 (for instance the list [0]), in which case the empty
query returns that cache instead. -/
theorem empty_tuple_register_noop (st : ManagerState)
    (h0 : assocLookup 0 st.tupleCaches = none) :
    ComponentTypesListHash [] = 0 ∧
    RegisterComponentsTupleIterator st [] = st ∧
    GetComponentsTuple st [] = ⟨none⟩ := by
  refine ⟨rfl, rfl, ?_⟩
  simp [GetComponentsTuple, GetComponentsTupleCache, ComponentTypesListHash,
        toUInt32, h0]

/-- Witness for the amended C10 theorem at the empty Manager. -/
theorem empty_tuple_register_noop_witness :
    assocLookup 0 emptyManager.tupleCaches = none ∧
    (ComponentTypesListHash [] = 0 ∧
     RegisterComponentsTupleIterator emptyManager [] = emptyManager ∧
     GetComponentsTuple emptyManager [] = ⟨none⟩) :=
  ⟨by decide, empty_tuple_register_noop emptyManager (by decide)⟩

end TinyEcs
